import Mathlib

/-!
Verification of the Snowflake ID generator
(`src/snowflake.js`, `src/customSnowflake.js`).

Shallow-embedding conventions:

* JavaScript `BigInt` arithmetic is exact.  Millisecond timestamps and the
  identifier values produced by the generator are non-negative and are
  modelled as `Nat`.  Decoding (`parseId`) operates on the value produced
  by the JS `BigInt(string)` conversion, which can be negative, so it is
  modelled on `Int` with two's-complement bitwise operations (`Int.land`,
  `Int.shiftRight`), which have exactly the JS BigInt `&` / `>>` semantics.
* The JS methods return identifiers as decimal strings
  (`uniqueId.toString()`); the embedding works with the numeric value that
  the decimal string denotes.  "Interpreted as an unsigned integer" in the
  specification is exactly this value.
* The spin-wait loops in `nextId` (`while (timestamp < this.lastTimestamp)`)
  and `waitNextMillis` (`while (timestamp <= this.lastTimestamp)`) read the
  wall clock until their exit condition holds; the embedding passes the
  clock readings observed at loop exit as explicit arguments, constrained
  by the corresponding loop-exit conditions.
-/

/-- Configuration of `SnowflakeIdGenerator` (`snowflake.js`, constructor):
bit widths, machine id, and `EPOCH` (the millisecond value of
`firstTimestamp`). -/
structure Config where
  machineIdBits : Nat
  sequenceBits : Nat
  machineId : Nat
  epoch : Nat
deriving DecidableEq

/-- `this.timestampBits = BigInt(41)`. -/
def timestampBits : Nat := 41

/-- `this.maxTimestamp = 2n ** timestampBits - 1n`. -/
def maxTimestamp : Nat := 2 ^ timestampBits - 1

/-- `this.maxMachineId = 2n ** machineIdBits - 1n`. -/
def maxMachineId (c : Config) : Nat := 2 ^ c.machineIdBits - 1

/-- `this.maxSequence = 2n ** sequenceBits - 1n`. -/
def maxSequence (c : Config) : Nat := 2 ^ c.sequenceBits - 1

/-- Mutable state of one generator instance: `lastTimestamp` and `sequence`.
In the source, `lastTimestamp` initially holds a `Date` object and is
replaced by a `BigInt` on the first `nextId` call; `lastIsDate` records
which of the two the field currently holds, because the strict-equality
test `this.lastTimestamp === timestamp` is `false` whenever the field
still holds the `Date` (different runtime types), even at equal values. -/
structure GenState where
  lastTimestamp : Nat
  lastIsDate : Bool
  sequence : Nat
deriving DecidableEq

/-- Constructor state: `this.sequence = BigInt(0)`,
`this.lastTimestamp = new Date(firstTimestamp)` (a `Date` whose
millisecond value equals `EPOCH`). -/
def initState (c : Config) : GenState :=
  { lastTimestamp := c.epoch, lastIsDate := true, sequence := 0 }

/-- The id-composition expression shared by `nextId`,
`getFirstIdAtTimestamp` and `getLastIdAtTimestamp`:
`((timestamp - EPOCH) << (machineIdBits + sequenceBits)) |
 (mid << sequenceBits) | seq`. -/
def composeId (c : Config) (timestamp mid seq : Nat) : Nat :=
  ((timestamp - c.epoch) <<< (c.machineIdBits + c.sequenceBits)) |||
    (mid <<< c.sequenceBits) ||| seq

/-- `nextId()` (snowflake.js lines 66-90).  `t` is the clock reading at
exit of the first spin loop (so `s.lastTimestamp ≤ t`), `tn` the reading
at exit of `waitNextMillis` (so `s.lastTimestamp < tn`); both exit
conditions appear as hypotheses of the theorems.  The test
`this.lastTimestamp === timestamp` succeeds only when the field already
holds a `BigInt` (`lastIsDate = false`) of the same value. -/
def nextId (c : Config) (s : GenState) (t tn : Nat) : Nat × GenState :=
  if s.lastIsDate = false ∧ s.lastTimestamp = t then
    if (s.sequence + 1) &&& maxSequence c = 0 then
      (composeId c tn c.machineId ((s.sequence + 1) &&& maxSequence c),
        ⟨tn, false, (s.sequence + 1) &&& maxSequence c⟩)
    else
      (composeId c t c.machineId ((s.sequence + 1) &&& maxSequence c),
        ⟨t, false, (s.sequence + 1) &&& maxSequence c⟩)
  else
    (composeId c t c.machineId 0, ⟨t, false, 0⟩)

/-- Outputs of a sequence of `nextId` calls; each list entry carries the
two spin-loop exit readings for that call. -/
def runCalls (c : Config) (s : GenState) : List (Nat × Nat) → List Nat
  | [] => []
  | (t, tn) :: rest =>
    (nextId c s t tn).1 :: runCalls c (nextId c s t tn).2 rest

/-- Spin-loop exit conditions along a trace of `nextId` calls: for each
call, the first reading is `≥ lastTimestamp` (exit of
`while (timestamp < this.lastTimestamp)`) and the `waitNextMillis`
reading is `> lastTimestamp` (exit of
`while (timestamp <= this.lastTimestamp)`).  Both hold eventually for a
non-decreasing clock that is at least the epoch. -/
def validCallsFrom (c : Config) (s : GenState) : List (Nat × Nat) → Bool
  | [] => true
  | (t, tn) :: rest =>
    decide (s.lastTimestamp ≤ t) && decide (s.lastTimestamp < tn) &&
      validCallsFrom c (nextId c s t tn).2 rest

/-- A JS value passed as a timestamp argument: a number (integer
milliseconds), a `Date` (with its millisecond value), or a value of any
other type. -/
inductive TsInput where
  | num : Nat → TsInput
  | date : Nat → TsInput
  | other : TsInput
deriving DecidableEq

/-- The numeric value of a timestamp argument, after
`BigInt(timestamp)` resp. `BigInt(timestamp.getTime())`. -/
def TsInput.value : TsInput → Option Nat
  | .num t => some t
  | .date t => some t
  | .other => none

/-- The errors thrown by the two source files, one constructor per
distinct `throw` site relevant to the claims. -/
inductive SfError where
  | timestampTypeError
  | timestampBeforeEpoch
  | sumOfBitsNot22
  | bitsNotPositive
  | machineIdOutOfRange
  | firstTimestampOutOfRange
  | invalidId
deriving DecidableEq

/-- The specification's `InvalidTimestampError` covers both failure modes
of the boundary-id queries: wrong argument type and timestamp before the
epoch (spec section 6). -/
def isInvalidTimestampError : SfError → Bool
  | .timestampTypeError => true
  | .timestampBeforeEpoch => true
  | _ => false

/-- The specification's `ConfigurationError` covers the construction-time
failures: bad bit widths and out-of-range machine id (spec section 7). -/
def isConfigurationError : SfError → Bool
  | .sumOfBitsNot22 => true
  | .bitsNotPositive => true
  | .machineIdOutOfRange => true
  | _ => false

/-- `getFirstIdAtTimestamp(timestamp)` (snowflake.js lines 92-113):
type check, epoch check, then the id with machine-id and sequence fields
forced to `0`. -/
def getFirstIdAtTimestamp (c : Config) (input : TsInput) : Except SfError Nat :=
  match input.value with
  | none => .error .timestampTypeError
  | some t =>
    if t < c.epoch then .error .timestampBeforeEpoch
    else .ok (composeId c t 0 0)

/-- `getLastIdAtTimestamp(timestamp)` (snowflake.js lines 115-136):
same checks, machine-id and sequence fields forced to their maxima. -/
def getLastIdAtTimestamp (c : Config) (input : TsInput) : Except SfError Nat :=
  match input.value with
  | none => .error .timestampTypeError
  | some t =>
    if t < c.epoch then .error .timestampBeforeEpoch
    else .ok (composeId c t (maxMachineId c) (maxSequence c))

/-- Result of `parseId`: `{timestamp, machineId, sequence}` (the
`timestamp` field is the millisecond value of the returned `Date`). -/
structure ParsedId where
  timestamp : Int
  machineId : Int
  sequence : Int
deriving DecidableEq

/-- Whether the result of an `Except` computation is a success. -/
def exceptOk {ε α : Type} : Except ε α → Bool
  | .ok _ => true
  | .error _ => false

/-- The field extraction of `parseId` (snowflake.js lines 140-150),
applied to the `BigInt` value of the input string.  JS BigInt `&` and
`>>` are two's-complement operations; `Int.land` and `Int.shiftRight`
have the same semantics. -/
def parseIdInt (c : Config) (idBits : Int) : ParsedId :=
  { timestamp :=
      Int.shiftRight idBits (c.machineIdBits + c.sequenceBits) + (c.epoch : Int)
    machineId :=
      Int.land (Int.shiftRight idBits c.sequenceBits) ((maxMachineId c : Nat) : Int)
    sequence := Int.land idBits ((maxSequence c : Nat) : Int) }

/-- Decimal digit characters, by code point (`'0'` is 48, `'9'` is 57). -/
def isDecDigit (ch : Char) : Bool :=
  decide (48 ≤ ch.toNat) && decide (ch.toNat ≤ 57)

/-- Whitespace stripped by the ECMAScript `StringToBigInt` conversion
(the common ASCII whitespace characters). -/
def isJsSpace (ch : Char) : Bool :=
  decide (ch = ' ' ∨ ch = '\t' ∨ ch = '\n' ∨ ch = '\r' ∨
    ch = '\x0b' ∨ ch = '\x0c')

/-- Value of one digit character under the given radix, `none` when the
character is not a digit of that radix (digits `0-9`, `a-f`, `A-F`). -/
def digitVal (radix : Nat) (ch : Char) : Option Nat :=
  if 48 ≤ ch.toNat ∧ ch.toNat ≤ 57 then
    if ch.toNat - 48 < radix then some (ch.toNat - 48) else none
  else if 97 ≤ ch.toNat ∧ ch.toNat ≤ 102 then
    if ch.toNat - 87 < radix then some (ch.toNat - 87) else none
  else if 65 ≤ ch.toNat ∧ ch.toNat ≤ 70 then
    if ch.toNat - 55 < radix then some (ch.toNat - 55) else none
  else none

/-- Accumulating evaluation of a digit string; `none` on the first
non-digit character. -/
def parseDigitsGo (radix : Nat) : Nat → List Char → Option Nat
  | acc, [] => some acc
  | acc, ch :: rest =>
    match digitVal radix ch with
    | none => none
    | some d => parseDigitsGo radix (radix * acc + d) rest

/-- Value of a non-empty digit string; `none` when empty or when any
character is not a digit of the radix. -/
def parseDigits (radix : Nat) (cs : List Char) : Option Nat :=
  match cs with
  | [] => none
  | _ => parseDigitsGo radix 0 cs

/-- Strip leading and trailing JS whitespace. -/
def trimJsSpace (cs : List Char) : List Char :=
  ((cs.dropWhile isJsSpace).reverse.dropWhile isJsSpace).reverse

/-- ECMAScript `StringToBigInt` on a trimmed character list: empty input
denotes `0`; `0x`/`0X`/`0b`/`0B`/`0o`/`0O` introduce unsigned non-decimal
literals; otherwise an optionally signed decimal literal.  `none` models
the `SyntaxError` thrown by `BigInt(string)`. -/
def jsStringToBigIntAux : List Char → Option Int
  | [] => some 0
  | ch :: rest =>
    if ch = '+' then Option.map Int.ofNat (parseDigits 10 rest)
    else if ch = '-' then
      Option.map (fun n => -(Int.ofNat n)) (parseDigits 10 rest)
    else if ch = '0' then
      match rest with
      | [] => some 0
      | d :: rest2 =>
        if d = 'x' ∨ d = 'X' then Option.map Int.ofNat (parseDigits 16 rest2)
        else if d = 'b' ∨ d = 'B' then
          Option.map Int.ofNat (parseDigits 2 rest2)
        else if d = 'o' ∨ d = 'O' then
          Option.map Int.ofNat (parseDigits 8 rest2)
        else Option.map Int.ofNat (parseDigits 10 (ch :: rest))
    else Option.map Int.ofNat (parseDigits 10 (ch :: rest))

/-- `BigInt(id)` on a string argument (snowflake.js line 140): the
ECMAScript string-to-BigInt conversion. -/
def jsStringToBigInt (s : String) : Option Int :=
  jsStringToBigIntAux (trimJsSpace s.toList)

/-- `parseId(id)` as exposed by `CustomSnowflakeId.parseId`
(customSnowflake.js lines 207-222 over snowflake.js lines 138-151): a
throw from `BigInt(id)` is caught and re-thrown as the invalid-id error;
otherwise the three fields are extracted from the `BigInt` value. -/
def parseId (c : Config) (id : String) : Except SfError ParsedId :=
  match jsStringToBigInt id with
  | none => .error .invalidId
  | some idBits => .ok (parseIdInt c idBits)

/-- A full generator instance: construction-time configuration plus the
mutable fields. -/
structure Generator where
  config : Config
  state : GenState
deriving DecidableEq

/-- Method `nextId` on an instance: only `this.sequence` and
`this.lastTimestamp` are assigned. -/
def nextIdM (g : Generator) (t tn : Nat) : Nat × Generator :=
  ((nextId g.config g.state t tn).1,
    { g with state := (nextId g.config g.state t tn).2 })

/-- Method `getFirstIdAtTimestamp` on an instance: its body only reads
`this.EPOCH`, the bit widths and `this.firstTimestamp`; no field is
assigned. -/
def getFirstIdAtTimestampM (g : Generator) (input : TsInput) :
    Except SfError Nat × Generator :=
  (getFirstIdAtTimestamp g.config input, g)

/-- Method `getLastIdAtTimestamp` on an instance: no field is assigned. -/
def getLastIdAtTimestampM (g : Generator) (input : TsInput) :
    Except SfError Nat × Generator :=
  (getLastIdAtTimestamp g.config input, g)

/-- Method `parseId` on an instance: no field is assigned. -/
def parseIdM (g : Generator) (id : String) :
    Except SfError ParsedId × Generator :=
  (parseId g.config id, g)

/-- Well-typed `CustomSnowflakeId` constructor options (the raw type and
unknown-key checks of customSnowflake.js lines 49-76 belong to the
excluded validation layer).  `FirstTimestamp` carries the millisecond
value of the supplied number or `Date`. -/
structure Options where
  MachineIdBits : Option Int
  SequenceBits : Option Int
  MachineId : Option Int
  FirstTimestamp : Option Int
deriving DecidableEq

/-- The arguments handed to `new SnowflakeIdGenerator(machineIdBits,
sequenceBits, machineId, firstTimestamp)` on successful construction. -/
structure CtorArgs where
  machineIdBits : Int
  sequenceBits : Int
  machineId : Option Int
  firstTimestamp : Int
deriving DecidableEq

/-- Millisecond value of the default epoch `2024-01-01T00:00:00.000Z`. -/
def defaultEpochMs : Int := 1704067200000

/-- Lines 81-92: resolve the two bit widths, deriving a missing one from
the other and defaulting to `10`/`12`. -/
def resolveBits (o : Options) : Int × Int :=
  match o.MachineIdBits, o.SequenceBits with
  | some m, some s => (m, s)
  | some m, none => (m, 22 - m)
  | none, some s => (22 - s, s)
  | none, none => (10, 12)

/-- Line 108: `FirstTimestamp ? new Date(FirstTimestamp) : default` — the
number `0` is falsy in JS and falls back to the default epoch. -/
def resolveFirstTimestamp (o : Options) : Int :=
  match o.FirstTimestamp with
  | some ft => if ft = 0 then defaultEpochMs else ft
  | none => defaultEpochMs

/-- Line 77, which parses as
`(hasFirstTimestamp && t < 0) || t > now`; when the option is absent `t`
is `NaN` and neither comparison holds. -/
def firstTimestampRejected (o : Options) (now : Int) : Bool :=
  match o.FirstTimestamp with
  | some ft => decide (ft < 0 ∨ ft > now)
  | none => false

/-- `new CustomSnowflakeId(options)` (customSnowflake.js lines 48-111)
with `Date.now()` passed as `now`.  At line 103 the source compares the
local variable `machineId` — initialised to `null` two lines above —
instead of the option `MachineId`; JS coerces `null` to `0` in `<` and
`>`, so the test executed is `0 < 0 || 0 > (1 << machineIdBits) - 1`. -/
def mkCustomSnowflakeId (o : Options) (now : Int) : Except SfError CtorArgs :=
  if firstTimestampRejected o now = true then
    .error .firstTimestampOutOfRange
  else if (resolveBits o).1 + (resolveBits o).2 ≠ 22 then
    .error .sumOfBitsNot22
  else if (resolveBits o).1 ≤ 0 ∨ (resolveBits o).2 ≤ 0 then
    .error .bitsNotPositive
  else if o.MachineId.isSome ∧
      ((0 : Int) < 0 ∨ (0 : Int) > 2 ^ (resolveBits o).1.toNat - 1) then
    .error .machineIdOutOfRange
  else
    .ok ⟨(resolveBits o).1, (resolveBits o).2, o.MachineId,
      resolveFirstTimestamp o⟩

/-- Bitwise-or of a left-shifted value with a value that fits entirely in
the shifted-away low bits is plain addition. -/
theorem shiftLeft_lor_eq_add (a : Nat) {b k : Nat} (hb : b < 2 ^ k) :
    (a <<< k) ||| b = 2 ^ k * a + b := by
  apply Nat.eq_of_testBit_eq
  intro j
  rw [Nat.testBit_mul_pow_two_add a hb j]
  simp only [Nat.testBit_or, Nat.testBit_shiftLeft]
  by_cases hj : j < k
  · have hlt : ¬ (j ≥ k) := by omega
    simp [hj, hlt]
  · have hge : j ≥ k := by omega
    have hbj : Nat.testBit b j = false :=
      Nat.testBit_lt_two_pow
        (lt_of_lt_of_le hb (Nat.pow_le_pow_right (by norm_num) hge))
    simp [hj, hge, hbj]

/-- With in-range machine id and sequence the three bit fields are
disjoint, and the composed id is the positional value
`((ts - epoch) * 2^machineIdBits + mid) * 2^sequenceBits + seq`. -/
theorem composeId_eq (c : Config) (ts mid seq : Nat)
    (hm : mid < 2 ^ c.machineIdBits) (hs : seq < 2 ^ c.sequenceBits) :
    composeId c ts mid seq =
      ((ts - c.epoch) * 2 ^ c.machineIdBits + mid) * 2 ^ c.sequenceBits +
        seq := by
  unfold composeId
  rw [Nat.or_assoc, shiftLeft_lor_eq_add mid hs]
  have hlt : 2 ^ c.sequenceBits * mid + seq <
      2 ^ (c.machineIdBits + c.sequenceBits) := by
    have h1 : 2 ^ c.sequenceBits * mid + seq <
        2 ^ c.sequenceBits * (mid + 1) := by
      rw [Nat.mul_add, Nat.mul_one]
      omega
    have h2 : 2 ^ c.sequenceBits * (mid + 1) ≤
        2 ^ c.sequenceBits * 2 ^ c.machineIdBits :=
      Nat.mul_le_mul_left _ (by omega)
    calc 2 ^ c.sequenceBits * mid + seq
        < 2 ^ c.sequenceBits * (mid + 1) := h1
      _ ≤ 2 ^ c.sequenceBits * 2 ^ c.machineIdBits := h2
      _ = 2 ^ (c.machineIdBits + c.sequenceBits) := by
          rw [pow_add]; ring
  rw [shiftLeft_lor_eq_add _ hlt, pow_add]
  ring

/-- `0 < 2 ^ n`, in the form used below. -/
theorem two_pow_pos_nat (n : Nat) : 0 < 2 ^ n := Nat.pos_pow_of_pos n (by omega)

/-- A sequence value bounded by `maxSequence` is below `2 ^ sequenceBits`. -/
theorem lt_pow_of_le_maxSequence (c : Config) {seq : Nat}
    (h : seq ≤ maxSequence c) : seq < 2 ^ c.sequenceBits := by
  have := two_pow_pos_nat c.sequenceBits
  unfold maxSequence at h
  omega

/-- A machine id bounded by `maxMachineId` is below `2 ^ machineIdBits`. -/
theorem lt_pow_of_le_maxMachineId (c : Config) {mid : Nat}
    (h : mid ≤ maxMachineId c) : mid < 2 ^ c.machineIdBits := by
  have := two_pow_pos_nat c.machineIdBits
  unfold maxMachineId at h
  omega

/-- `Int.shiftRight` on a natural number agrees with `Nat.shiftRight`. -/
theorem int_shiftRight_natCast (m k : Nat) :
    Int.shiftRight ((m : Nat) : Int) k = ((m >>> k : Nat) : Int) := rfl

/-- `Int.land` on natural numbers agrees with `Nat.land`. -/
theorem int_land_natCast (m n : Nat) :
    Int.land ((m : Nat) : Int) ((n : Nat) : Int) = ((m &&& n : Nat) : Int) := rfl

/-- Decoding a composed id recovers the three fields exactly, for any
absolute timestamp at or after the epoch and in-range field values. -/
theorem parseIdInt_composeId (c : Config) (ts mid seq : Nat)
    (he : c.epoch ≤ ts) (hm : mid ≤ maxMachineId c)
    (hs : seq ≤ maxSequence c) :
    parseIdInt c ((composeId c ts mid seq : Nat) : Int) =
      { timestamp := (ts : Int), machineId := (mid : Int),
        sequence := (seq : Int) } := by
  have hm2 := lt_pow_of_le_maxMachineId c hm
  have hs2 := lt_pow_of_le_maxSequence c hs
  have hrepr := composeId_eq c ts mid seq hm2 hs2
  have hEpos := two_pow_pos_nat c.sequenceBits
  have hMpos := two_pow_pos_nat c.machineIdBits
  have hseq : composeId c ts mid seq &&& maxSequence c = seq := by
    unfold maxSequence
    rw [Nat.and_pow_two_sub_one_eq_mod, hrepr, Nat.add_comm,
      Nat.add_mul_mod_self_right, Nat.mod_eq_of_lt hs2]
  have hdivE : composeId c ts mid seq / 2 ^ c.sequenceBits =
      (ts - c.epoch) * 2 ^ c.machineIdBits + mid := by
    rw [hrepr, Nat.add_comm, Nat.add_mul_div_right _ _ hEpos,
      Nat.div_eq_of_lt hs2, Nat.zero_add]
  have hmid : (composeId c ts mid seq >>> c.sequenceBits) &&&
      maxMachineId c = mid := by
    unfold maxMachineId
    rw [Nat.shiftRight_eq_div_pow, hdivE, Nat.and_pow_two_sub_one_eq_mod,
      Nat.add_comm, Nat.add_mul_mod_self_right, Nat.mod_eq_of_lt hm2]
  have hsmall : mid * 2 ^ c.sequenceBits + seq <
      2 ^ c.machineIdBits * 2 ^ c.sequenceBits := by
    calc mid * 2 ^ c.sequenceBits + seq
        < (mid + 1) * 2 ^ c.sequenceBits := by
          rw [Nat.add_mul, Nat.one_mul]; omega
      _ ≤ 2 ^ c.machineIdBits * 2 ^ c.sequenceBits :=
          Nat.mul_le_mul_right _ (by omega)
  have hts : composeId c ts mid seq >>>
      (c.machineIdBits + c.sequenceBits) = ts - c.epoch := by
    have hPpos : 0 < 2 ^ c.machineIdBits * 2 ^ c.sequenceBits :=
      Nat.mul_pos hMpos hEpos
    have hco : composeId c ts mid seq =
        2 ^ c.machineIdBits * 2 ^ c.sequenceBits * (ts - c.epoch) +
          (mid * 2 ^ c.sequenceBits + seq) := by rw [hrepr]; ring
    rw [Nat.shiftRight_eq_div_pow, pow_add, hco, Nat.mul_add_div hPpos,
      Nat.div_eq_of_lt hsmall, Nat.add_zero]
  unfold parseIdInt
  rw [int_shiftRight_natCast, int_shiftRight_natCast, int_land_natCast,
    int_land_natCast, hts, hmid, hseq]
  simp only [ParsedId.mk.injEq, and_true]
  rw [Nat.cast_sub he]
  ring

/-- At a fixed timestamp the composed id is strictly monotone in the
sequence field. -/
theorem composeId_lt_of_seq_lt (c : Config) (ts mid : Nat) {s1 s2 : Nat}
    (hm : mid < 2 ^ c.machineIdBits) (hs2 : s2 < 2 ^ c.sequenceBits)
    (h : s1 < s2) :
    composeId c ts mid s1 < composeId c ts mid s2 := by
  rw [composeId_eq c ts mid s1 hm (by omega),
    composeId_eq c ts mid s2 hm hs2]
  exact Nat.add_lt_add_left h _

/-- Between strictly increasing timestamps the composed id strictly
increases, whatever the in-range field values on either side. -/
theorem composeId_lt_of_ts_lt (c : Config) {ts1 ts2 mid1 mid2 s1 s2 : Nat}
    (hm1 : mid1 < 2 ^ c.machineIdBits) (hm2 : mid2 < 2 ^ c.machineIdBits)
    (hs1 : s1 < 2 ^ c.sequenceBits) (hs2 : s2 < 2 ^ c.sequenceBits)
    (he : c.epoch ≤ ts1) (h : ts1 < ts2) :
    composeId c ts1 mid1 s1 < composeId c ts2 mid2 s2 := by
  rw [composeId_eq c ts1 mid1 s1 hm1 hs1,
    composeId_eq c ts2 mid2 s2 hm2 hs2]
  have hD : ts1 - c.epoch + 1 ≤ ts2 - c.epoch := by omega
  calc ((ts1 - c.epoch) * 2 ^ c.machineIdBits + mid1) *
        2 ^ c.sequenceBits + s1
      < ((ts1 - c.epoch) * 2 ^ c.machineIdBits + mid1 + 1) *
        2 ^ c.sequenceBits := by
        rw [Nat.succ_mul]
        exact Nat.add_lt_add_left hs1 _
    _ ≤ ((ts1 - c.epoch + 1) * 2 ^ c.machineIdBits) *
        2 ^ c.sequenceBits := by
        apply mul_le_mul_right'
        rw [Nat.succ_mul, Nat.add_assoc]
        exact Nat.add_le_add_left (by omega) _
    _ ≤ ((ts2 - c.epoch) * 2 ^ c.machineIdBits) * 2 ^ c.sequenceBits := by
        apply mul_le_mul_right'
        exact mul_le_mul_right' hD _
    _ ≤ ((ts2 - c.epoch) * 2 ^ c.machineIdBits + mid2) *
        2 ^ c.sequenceBits + s2 :=
        le_trans (mul_le_mul_right' (Nat.le_add_right _ mid2) _)
          (Nat.le_add_right _ s2)

/-- Invariant maintained by `nextId` after the first call: the
`lastTimestamp` field holds a `BigInt`, the sequence is in range, and the
last timestamp is at or after the epoch. -/
def GoodState (c : Config) (s : GenState) : Prop :=
  s.lastIsDate = false ∧ s.sequence ≤ maxSequence c ∧
    c.epoch ≤ s.lastTimestamp

/-- One `nextId` call from an invariant state under the loop-exit
conditions: the new id is strictly above the id composed from the
previous state, the invariant is preserved, and the output equals the id
composed from the new state. -/
theorem nextId_step (c : Config) (s : GenState) (t tn : Nat)
    (hmid : c.machineId ≤ maxMachineId c) (hgood : GoodState c s)
    (ht : s.lastTimestamp ≤ t) (htn : s.lastTimestamp < tn) :
    composeId c s.lastTimestamp c.machineId s.sequence <
      (nextId c s t tn).1 ∧
    GoodState c (nextId c s t tn).2 ∧
    (nextId c s t tn).1 = composeId c (nextId c s t tn).2.lastTimestamp
      c.machineId (nextId c s t tn).2.sequence := by
  obtain ⟨hdate, hseq, hep⟩ := hgood
  have hm2 := lt_pow_of_le_maxMachineId c hmid
  have hs2 := lt_pow_of_le_maxSequence c hseq
  have hEpos := two_pow_pos_nat c.sequenceBits
  have hwrap : (s.sequence + 1) &&& maxSequence c =
      (s.sequence + 1) % 2 ^ c.sequenceBits := by
    unfold maxSequence
    exact Nat.and_pow_two_sub_one_eq_mod _ _
  unfold nextId
  by_cases hsame : s.lastIsDate = false ∧ s.lastTimestamp = t
  · rw [if_pos hsame]
    by_cases hz : (s.sequence + 1) &&& maxSequence c = 0
    · rw [if_pos hz]
      refine ⟨?_, ⟨rfl, Nat.and_le_right, show c.epoch ≤ tn by omega⟩, rfl⟩
      exact composeId_lt_of_ts_lt c hm2 hm2 hs2 (by rw [hz]; omega) hep htn
    · rw [if_neg hz]
      have hlt : s.sequence + 1 < 2 ^ c.sequenceBits := by
        rcases Nat.lt_or_ge (s.sequence + 1) (2 ^ c.sequenceBits) with h | h
        · exact h
        · exfalso
          apply hz
          rw [hwrap]
          have hx : s.sequence + 1 = 2 ^ c.sequenceBits := by omega
          rw [hx, Nat.mod_self]
      have hseqnew : (s.sequence + 1) &&& maxSequence c = s.sequence + 1 := by
        rw [hwrap, Nat.mod_eq_of_lt hlt]
      refine ⟨?_, ⟨rfl, Nat.and_le_right, show c.epoch ≤ t by omega⟩, rfl⟩
      rw [hseqnew, ← hsame.2]
      exact composeId_lt_of_seq_lt c s.lastTimestamp c.machineId hm2 hlt
        (Nat.lt_succ_self _)
  · rw [if_neg hsame]
    have hne : s.lastTimestamp ≠ t := fun e => hsame ⟨hdate, e⟩
    refine ⟨?_, ⟨rfl, Nat.zero_le _, show c.epoch ≤ t by omega⟩, rfl⟩
    exact composeId_lt_of_ts_lt c hm2 hm2 hs2 hEpos hep (by omega)

/-- Along any trace satisfying the loop-exit conditions from an invariant
state, the id composed from the state followed by the outputs of the
calls forms a strictly increasing chain. -/
theorem runCalls_chain (c : Config) (hmid : c.machineId ≤ maxMachineId c)
    (calls : List (Nat × Nat)) :
    ∀ s : GenState, GoodState c s → validCallsFrom c s calls = true →
      List.Chain' (· < ·)
        (composeId c s.lastTimestamp c.machineId s.sequence ::
          runCalls c s calls) := by
  induction calls with
  | nil =>
    intro s _ _
    simp [runCalls]
  | cons p rest ih =>
    intro s hgood hv
    obtain ⟨t, tn⟩ := p
    simp only [validCallsFrom, Bool.and_eq_true, decide_eq_true_eq] at hv
    obtain ⟨⟨ht, htn⟩, hv2⟩ := hv
    obtain ⟨hstep, hgood2, hout⟩ := nextId_step c s t tn hmid hgood ht htn
    simp only [runCalls]
    rw [List.chain'_cons]
    refine ⟨hstep, ?_⟩
    rw [hout]
    exact ih _ hgood2 hv2

/-- C1: for any sequence of `nextId` calls on one instance with an
in-range machine id (spec section 3 configuration invariant), whose clock
readings satisfy the spin-loop exit conditions — guaranteed for a
non-decreasing system clock at or after the epoch — the returned
identifier values, i.e. the decimal strings read as unsigned integers,
are strictly increasing. -/
theorem nextId_strictly_increasing (c : Config) (calls : List (Nat × Nat))
    (hmid : c.machineId ≤ maxMachineId c)
    (hv : validCallsFrom c (initState c) calls = true) :
    List.Chain' (· < ·) (runCalls c (initState c) calls) := by
  cases calls with
  | nil => simp [runCalls]
  | cons p rest =>
    obtain ⟨t, tn⟩ := p
    simp only [validCallsFrom, Bool.and_eq_true, decide_eq_true_eq] at hv
    obtain ⟨⟨ht, htn⟩, hv2⟩ := hv
    simp only [initState] at ht htn
    have hfirst : nextId c (initState c) t tn =
        (composeId c t c.machineId 0, ⟨t, false, 0⟩) := by
      simp [nextId, initState]
    simp only [runCalls, hfirst]
    exact runCalls_chain c hmid rest ⟨t, false, 0⟩ ⟨rfl, Nat.zero_le _, ht⟩ hv2

/-- C1 witness: a config with machine id 5, epoch 100 and three calls,
two of them in the same millisecond. -/
theorem nextId_strictly_increasing_witness :
    ((⟨10, 12, 5, 100⟩ : Config).machineId ≤ maxMachineId ⟨10, 12, 5, 100⟩ ∧
      validCallsFrom ⟨10, 12, 5, 100⟩ (initState ⟨10, 12, 5, 100⟩)
        [(100, 101), (100, 101), (101, 102)] = true) ∧
    List.Chain' (· < ·) (runCalls ⟨10, 12, 5, 100⟩
      (initState ⟨10, 12, 5, 100⟩) [(100, 101), (100, 101), (101, 102)]) :=
  ⟨⟨by decide, by decide⟩,
    nextId_strictly_increasing ⟨10, 12, 5, 100⟩
      [(100, 101), (100, 101), (101, 102)] (by decide) (by decide)⟩

/-- C2: for every configuration and timestamp `T` at or after the epoch,
decoding the first boundary id yields
`{timestamp := T, machineId := 0, sequence := 0}` and decoding the last
boundary id yields `{timestamp := T, machineId := maxMachineId,
sequence := maxSequence}`. -/
theorem boundary_roundTrip (c : Config) (T : Nat) (he : c.epoch ≤ T) :
    getFirstIdAtTimestamp c (.num T) = .ok (composeId c T 0 0) ∧
    parseIdInt c ((composeId c T 0 0 : Nat) : Int) =
      { timestamp := (T : Int), machineId := 0, sequence := 0 } ∧
    getLastIdAtTimestamp c (.num T) =
      .ok (composeId c T (maxMachineId c) (maxSequence c)) ∧
    parseIdInt c
        ((composeId c T (maxMachineId c) (maxSequence c) : Nat) : Int) =
      { timestamp := (T : Int), machineId := (maxMachineId c : Int),
        sequence := (maxSequence c : Int) } := by
  have hnot : ¬ T < c.epoch := by omega
  refine ⟨?_, ?_, ?_, ?_⟩
  · simp [getFirstIdAtTimestamp, TsInput.value, hnot]
  · simpa using parseIdInt_composeId c T 0 0 he (Nat.zero_le _) (Nat.zero_le _)
  · simp [getLastIdAtTimestamp, TsInput.value, hnot]
  · exact parseIdInt_composeId c T (maxMachineId c) (maxSequence c) he
      (le_refl _) (le_refl _)

/-- C2 witness: round trip at epoch 100, timestamp 105. -/
theorem boundary_roundTrip_witness :
    parseIdInt ⟨10, 12, 5, 100⟩
        ((composeId ⟨10, 12, 5, 100⟩ 105 0 0 : Nat) : Int) =
      { timestamp := 105, machineId := 0, sequence := 0 } :=
  (boundary_roundTrip ⟨10, 12, 5, 100⟩ 105 (by decide)).2.1

/-- C3: decoding the id returned by `nextId` recovers the configured
machine id and a sequence in `[0, maxSequence]`, for a generator with
in-range machine id, in-range sequence state, and clock readings at or
after the epoch. -/
theorem nextId_parse_fields (c : Config) (s : GenState) (t tn : Nat)
    (hmid : c.machineId ≤ maxMachineId c)
    (_hseq : s.sequence ≤ maxSequence c)
    (hep : c.epoch ≤ s.lastTimestamp) (ht : s.lastTimestamp ≤ t)
    (htn : s.lastTimestamp < tn) :
    (parseIdInt c (((nextId c s t tn).1 : Nat) : Int)).machineId =
      (c.machineId : Int) ∧
    0 ≤ (parseIdInt c (((nextId c s t tn).1 : Nat) : Int)).sequence ∧
    (parseIdInt c (((nextId c s t tn).1 : Nat) : Int)).sequence ≤
      (maxSequence c : Int) := by
  have hresult : ∃ ts2 seq2, c.epoch ≤ ts2 ∧ seq2 ≤ maxSequence c ∧
      (nextId c s t tn).1 = composeId c ts2 c.machineId seq2 := by
    unfold nextId
    by_cases hsame : s.lastIsDate = false ∧ s.lastTimestamp = t
    · rw [if_pos hsame]
      by_cases hz : (s.sequence + 1) &&& maxSequence c = 0
      · rw [if_pos hz]
        exact ⟨tn, (s.sequence + 1) &&& maxSequence c, by omega,
          Nat.and_le_right, rfl⟩
      · rw [if_neg hz]
        exact ⟨t, (s.sequence + 1) &&& maxSequence c, by omega,
          Nat.and_le_right, rfl⟩
    · rw [if_neg hsame]
      exact ⟨t, 0, by omega, Nat.zero_le _, rfl⟩
  obtain ⟨ts2, seq2, hts2, hseq2, hout⟩ := hresult
  rw [hout, parseIdInt_composeId c ts2 c.machineId seq2 hts2 hmid hseq2]
  exact ⟨rfl, Int.natCast_nonneg _, Nat.cast_le.mpr hseq2⟩

/-- C3 witness: decode one generated id at a concrete state. -/
theorem nextId_parse_fields_witness :
    (parseIdInt ⟨10, 12, 5, 100⟩
        (((nextId ⟨10, 12, 5, 100⟩ ⟨100, false, 3⟩ 100 101).1 : Nat) :
          Int)).machineId = ((5 : Nat) : Int) ∧
    0 ≤ (parseIdInt ⟨10, 12, 5, 100⟩
        (((nextId ⟨10, 12, 5, 100⟩ ⟨100, false, 3⟩ 100 101).1 : Nat) :
          Int)).sequence ∧
    (parseIdInt ⟨10, 12, 5, 100⟩
        (((nextId ⟨10, 12, 5, 100⟩ ⟨100, false, 3⟩ 100 101).1 : Nat) :
          Int)).sequence ≤ (maxSequence ⟨10, 12, 5, 100⟩ : Int) :=
  nextId_parse_fields ⟨10, 12, 5, 100⟩ ⟨100, false, 3⟩ 100 101 (by decide)
    (by decide) (by decide) (by decide) (by decide)

/-- C4: the first boundary id equals `(T - epoch)` shifted past the
machine-id and sequence fields, it is the smallest value whose timestamp
field equals `T - epoch`, and for the default layout with epoch
2024-01-01T00:00:00.000Z and `T` one millisecond later it is `4194304`. -/
theorem getFirstIdAtTimestamp_smallest (c : Config) (T : Nat)
    (he : c.epoch ≤ T) :
    getFirstIdAtTimestamp c (.num T) =
      .ok ((T - c.epoch) <<< (c.machineIdBits + c.sequenceBits)) ∧
    (∀ n : Nat, n >>> (c.machineIdBits + c.sequenceBits) = T - c.epoch →
      (T - c.epoch) <<< (c.machineIdBits + c.sequenceBits) ≤ n) ∧
    getFirstIdAtTimestamp ⟨10, 12, 5, 1704067200000⟩
      (.num 1704067200001) = .ok 4194304 := by
  have hnot : ¬ T < c.epoch := by omega
  refine ⟨?_, ?_, ?_⟩
  · simp [getFirstIdAtTimestamp, TsInput.value, hnot, composeId,
      Nat.zero_shiftLeft, Nat.or_zero]
  · intro n hn
    rw [Nat.shiftLeft_eq, ← hn, Nat.shiftRight_eq_div_pow]
    exact Nat.div_mul_le_self n _
  · rfl

/-- C4 witness: concrete first id at epoch 100, timestamp 103. -/
theorem getFirstIdAtTimestamp_smallest_witness :
    getFirstIdAtTimestamp ⟨10, 12, 5, 100⟩ (.num 103) =
      .ok ((103 - 100) <<< (10 + 12)) :=
  (getFirstIdAtTimestamp_smallest ⟨10, 12, 5, 100⟩ 103 (by decide)).1

/-- C5: boundary ordering — `getFirstIdAtTimestamp T ≤
getLastIdAtTimestamp T`, and both lie strictly between
`getLastIdAtTimestamp (T-1)` and `getFirstIdAtTimestamp (T+1)`, for every
`T` at least one millisecond after the epoch. -/
theorem boundary_ordering (c : Config) (T : Nat) (he : c.epoch + 1 ≤ T) :
    getFirstIdAtTimestamp c (.num T) = .ok (composeId c T 0 0) ∧
    getLastIdAtTimestamp c (.num T) =
      .ok (composeId c T (maxMachineId c) (maxSequence c)) ∧
    getLastIdAtTimestamp c (.num (T - 1)) =
      .ok (composeId c (T - 1) (maxMachineId c) (maxSequence c)) ∧
    getFirstIdAtTimestamp c (.num (T + 1)) =
      .ok (composeId c (T + 1) 0 0) ∧
    composeId c T 0 0 ≤ composeId c T (maxMachineId c) (maxSequence c) ∧
    composeId c (T - 1) (maxMachineId c) (maxSequence c) <
      composeId c T 0 0 ∧
    composeId c T (maxMachineId c) (maxSequence c) <
      composeId c (T + 1) 0 0 := by
  have hm0 : (0 : Nat) < 2 ^ c.machineIdBits :=
    lt_pow_of_le_maxMachineId c (Nat.zero_le _)
  have hs0 : (0 : Nat) < 2 ^ c.sequenceBits :=
    lt_pow_of_le_maxSequence c (Nat.zero_le _)
  have hmM : maxMachineId c < 2 ^ c.machineIdBits :=
    lt_pow_of_le_maxMachineId c (le_refl _)
  have hsM : maxSequence c < 2 ^ c.sequenceBits :=
    lt_pow_of_le_maxSequence c (le_refl _)
  refine ⟨?_, ?_, ?_, ?_, ?_, ?_, ?_⟩
  · simp [getFirstIdAtTimestamp, TsInput.value, show ¬ T < c.epoch by omega]
  · simp [getLastIdAtTimestamp, TsInput.value, show ¬ T < c.epoch by omega]
  · simp [getLastIdAtTimestamp, TsInput.value,
      show ¬ T - 1 < c.epoch by omega]
  · simp [getFirstIdAtTimestamp, TsInput.value,
      show ¬ T + 1 < c.epoch by omega]
  · rw [composeId_eq c T 0 0 hm0 hs0,
      composeId_eq c T (maxMachineId c) (maxSequence c) hmM hsM]
    exact le_trans
      (Nat.add_le_add_right
        (mul_le_mul_right' (Nat.add_le_add_left (Nat.zero_le _) _) _) _)
      (Nat.add_le_add_left (Nat.zero_le _) _)
  · exact composeId_lt_of_ts_lt c hmM hm0 hsM hs0 (by omega) (by omega)
  · exact composeId_lt_of_ts_lt c hmM hm0 hsM hs0 (by omega) (by omega)

/-- C5 witness: boundary ordering at epoch 100, timestamp 105. -/
theorem boundary_ordering_witness :
    composeId ⟨10, 12, 5, 100⟩ (105 - 1)
        (maxMachineId ⟨10, 12, 5, 100⟩) (maxSequence ⟨10, 12, 5, 100⟩) <
      composeId ⟨10, 12, 5, 100⟩ 105 0 0 :=
  (boundary_ordering ⟨10, 12, 5, 100⟩ 105 (by decide)).2.2.2.2.2.1

/-- C6: the boundary-id queries fail with the spec's
`InvalidTimestampError` exactly when the argument value is strictly
before the epoch or the argument is not a number/date value; otherwise
they succeed; and neither query ever changes the instance. -/
theorem boundary_query_errors (c : Config) (input : TsInput)
    (g : Generator) :
    ((∃ e, getFirstIdAtTimestamp c input = .error e ∧
        isInvalidTimestampError e = true) ↔
      (input = .other ∨ ∃ t, input.value = some t ∧ t < c.epoch)) ∧
    ((∃ e, getLastIdAtTimestamp c input = .error e ∧
        isInvalidTimestampError e = true) ↔
      (input = .other ∨ ∃ t, input.value = some t ∧ t < c.epoch)) ∧
    (¬ (input = .other ∨ ∃ t, input.value = some t ∧ t < c.epoch) →
      exceptOk (getFirstIdAtTimestamp c input) = true ∧
        exceptOk (getLastIdAtTimestamp c input) = true) ∧
    (getFirstIdAtTimestampM g input).2 = g ∧
    (getLastIdAtTimestampM g input).2 = g := by
  refine ⟨?_, ?_, ?_, rfl, rfl⟩ <;>
    cases input with
    | num t =>
      by_cases hlt : t < c.epoch <;>
        simp [getFirstIdAtTimestamp, getLastIdAtTimestamp, TsInput.value,
          hlt, isInvalidTimestampError, exceptOk]
    | date t =>
      by_cases hlt : t < c.epoch <;>
        simp [getFirstIdAtTimestamp, getLastIdAtTimestamp, TsInput.value,
          hlt, isInvalidTimestampError, exceptOk]
    | other =>
      simp [getFirstIdAtTimestamp, getLastIdAtTimestamp, TsInput.value,
        isInvalidTimestampError, exceptOk]

/-- C6 witness: a query one millisecond before the epoch fails with the
invalid-timestamp error. -/
theorem boundary_query_errors_witness :
    ∃ e, getFirstIdAtTimestamp ⟨10, 12, 5, 100⟩ (.num 99) = .error e ∧
      isInvalidTimestampError e = true :=
  ((boundary_query_errors ⟨10, 12, 5, 100⟩ (.num 99)
    ⟨⟨10, 12, 5, 100⟩, ⟨100, true, 0⟩⟩).1).mpr (Or.inr ⟨99, rfl, by decide⟩)

/-- Modelled from the spec: a syntactically valid non-negative integer
string is a non-empty string of decimal digits. -/
def specNonNegIntegerString (s : String) : Bool :=
  decide (s.toList ≠ []) && s.toList.all isDecDigit

/-- Code-point bounds of a decimal digit character. -/
theorem isDecDigit_bounds {ch : Char} (h : isDecDigit ch = true) :
    48 ≤ ch.toNat ∧ ch.toNat ≤ 57 := by
  simpa [isDecDigit, Bool.and_eq_true, decide_eq_true_eq] using h

/-- Digit characters are not JS whitespace. -/
theorem isJsSpace_eq_false_of_digit {ch : Char} (h : isDecDigit ch = true) :
    isJsSpace ch = false := by
  obtain ⟨h1, _⟩ := isDecDigit_bounds h
  unfold isJsSpace
  rw [decide_eq_false_iff_not]
  rintro (e | e | e | e | e | e) <;> subst e <;> exact absurd h1 (by decide)

/-- A digit character differs from any character below code point 48. -/
theorem digit_ne_char_of_lt {ch c2 : Char} (h : isDecDigit ch = true)
    (hlt : c2.toNat < 48) : ch ≠ c2 := by
  intro e
  obtain ⟨h1, _⟩ := isDecDigit_bounds h
  subst e
  omega

/-- A digit character differs from any character above code point 57. -/
theorem digit_ne_char_of_gt {ch c2 : Char} (h : isDecDigit ch = true)
    (hgt : 57 < c2.toNat) : ch ≠ c2 := by
  intro e
  obtain ⟨_, h2⟩ := isDecDigit_bounds h
  subst e
  omega

/-- A decimal digit character evaluates under radix 10. -/
theorem digitVal_ten_of_digit {ch : Char} (h : isDecDigit ch = true) :
    digitVal 10 ch = some (ch.toNat - 48) := by
  obtain ⟨h1, h2⟩ := isDecDigit_bounds h
  unfold digitVal
  rw [if_pos ⟨h1, h2⟩, if_pos (by omega)]

/-- Digit-string evaluation succeeds on all-decimal input. -/
theorem parseDigitsGo_ten_isSome (cs : List Char) :
    ∀ acc, cs.all isDecDigit = true →
      (parseDigitsGo 10 acc cs).isSome = true := by
  induction cs with
  | nil =>
    intro acc _
    rfl
  | cons ch rest ih =>
    intro acc h
    rw [List.all_cons, Bool.and_eq_true] at h
    simp only [parseDigitsGo, digitVal_ten_of_digit h.1]
    exact ih _ h.2

/-- Leading whitespace removal is the identity on all-digit strings. -/
theorem dropWhile_isJsSpace_of_digits {cs : List Char}
    (h : cs.all isDecDigit = true) : cs.dropWhile isJsSpace = cs := by
  cases cs with
  | nil => rfl
  | cons ch rest =>
    rw [List.all_cons, Bool.and_eq_true] at h
    rw [List.dropWhile_cons, isJsSpace_eq_false_of_digit h.1]
    simp

/-- Trimming is the identity on all-digit strings. -/
theorem trimJsSpace_of_digits {cs : List Char}
    (h : cs.all isDecDigit = true) : trimJsSpace cs = cs := by
  unfold trimJsSpace
  rw [dropWhile_isJsSpace_of_digits h,
    dropWhile_isJsSpace_of_digits (by simpa using h), List.reverse_reverse]

/-- JS `BigInt(string)` accepts every non-empty decimal-digit string. -/
theorem jsStringToBigInt_isSome_of_digits {s : String}
    (h : specNonNegIntegerString s = true) :
    (jsStringToBigInt s).isSome = true := by
  unfold specNonNegIntegerString at h
  rw [Bool.and_eq_true, decide_eq_true_eq] at h
  obtain ⟨hne, hall⟩ := h
  unfold jsStringToBigInt
  rw [trimJsSpace_of_digits hall]
  cases hcs : s.toList with
  | nil => exact absurd hcs hne
  | cons ch rest =>
    rw [hcs] at hall
    rw [List.all_cons, Bool.and_eq_true] at hall
    obtain ⟨hch, hrest⟩ := hall
    have hplus : ch ≠ '+' := digit_ne_char_of_lt hch (by decide)
    have hminus : ch ≠ '-' := digit_ne_char_of_lt hch (by decide)
    simp only [jsStringToBigIntAux, if_neg hplus, if_neg hminus]
    by_cases h0 : ch = '0'
    · rw [if_pos h0]
      cases rest with
      | nil => rfl
      | cons d rest2 =>
        rw [List.all_cons, Bool.and_eq_true] at hrest
        have hx : ¬ (d = 'x' ∨ d = 'X') := by
          rintro (e | e) <;> exact digit_ne_char_of_gt hrest.1 (by decide) e
        have hb : ¬ (d = 'b' ∨ d = 'B') := by
          rintro (e | e) <;> exact digit_ne_char_of_gt hrest.1 (by decide) e
        have ho : ¬ (d = 'o' ∨ d = 'O') := by
          rintro (e | e) <;> exact digit_ne_char_of_gt hrest.1 (by decide) e
        dsimp only
        rw [if_neg hx, if_neg hb, if_neg ho, Option.isSome_map']
        exact parseDigitsGo_ten_isSome (ch :: d :: rest2) 0
          (by rw [List.all_cons, List.all_cons]
              simp [hch, hrest.1, hrest.2])
    · rw [if_neg h0]
      rw [Option.isSome_map']
      exact parseDigitsGo_ten_isSome (ch :: rest) 0
        (by rw [List.all_cons]; simp [hch, hrest])

/-- C7 counterexample: the string `"-1"` is not a syntactically valid
non-negative integer string, yet `parseId` accepts it — `BigInt("-1")`
succeeds in JS — so `parseId` does not fail exactly on the complement of
the non-negative integer strings. -/
theorem parseId_accepts_negative_string :
    specNonNegIntegerString "-1" = false ∧
    exceptOk (parseId ⟨10, 12, 5, 100⟩ "-1") = true := by
  constructor
  · decide
  · rfl

/-- C7 amended: `parseId` fails with the invalid-id error exactly when
the JS `BigInt` string conversion rejects the input; every syntactically
valid non-negative integer string is accepted and `"not-a-number"` is
rejected.  (The accepted set is strictly larger than the non-negative
integer strings: signed, hexadecimal, binary, octal, empty and
whitespace-only strings are accepted too.) -/
theorem parseId_error_characterization (c : Config) (s : String) :
    (parseId c s = .error .invalidId ↔ jsStringToBigInt s = none) ∧
    (specNonNegIntegerString s = true → exceptOk (parseId c s) = true) ∧
    parseId c "not-a-number" = .error .invalidId := by
  refine ⟨?_, ?_, ?_⟩
  · unfold parseId
    cases h : jsStringToBigInt s <;> simp
  · intro h
    have hs := jsStringToBigInt_isSome_of_digits h
    unfold parseId
    cases hj : jsStringToBigInt s
    · rw [hj] at hs
      exact absurd hs (by decide)
    · rfl
  · rfl

/-- C7 amended witness: the digit string `"42"` is accepted. -/
theorem parseId_error_characterization_witness :
    exceptOk (parseId ⟨10, 12, 5, 100⟩ "42") = true :=
  (parseId_error_characterization ⟨10, 12, 5, 100⟩ "42").2.1 (by decide)

/-- C8: the machine-id range check at customSnowflake.js line 103
compares the local variable `machineId` — still `null` at that point —
instead of the option `MachineId`, so it can never fire and an
out-of-range machine id is accepted: construction with
`MachineIdBits = 10`, `SequenceBits = 12` and `MachineId = 1024` (one
above the maximum 1023) succeeds, passing `1024` through to the
generator, where the spec and the constructor's own documentation
require a `ConfigurationError`. -/
theorem mkCustom_accepts_out_of_range_machineId :
    mkCustomSnowflakeId ⟨some 10, some 12, some 1024, none⟩ 0 =
      .ok ⟨10, 12, some 1024, defaultEpochMs⟩ := by
  rfl

/-- C9: construction succeeds only when the resolved bit widths are both
strictly positive and sum to 22, and every explicitly supplied pair of
bit widths violating this fails with one of the configuration errors. -/
theorem mkCustom_bits_validation :
    (∀ (o : Options) (now : Int) (args : CtorArgs),
      mkCustomSnowflakeId o now = .ok args →
        0 < args.machineIdBits ∧ 0 < args.sequenceBits ∧
          args.machineIdBits + args.sequenceBits = 22) ∧
    (∀ mb sb now : Int, ¬ (0 < mb ∧ 0 < sb ∧ mb + sb = 22) →
      ∃ e, mkCustomSnowflakeId ⟨some mb, some sb, none, none⟩ now =
          .error e ∧ isConfigurationError e = true) := by
  constructor
  · intro o now args h
    unfold mkCustomSnowflakeId at h
    by_cases h1 : firstTimestampRejected o now = true
    · rw [if_pos h1] at h
      exact Except.noConfusion h
    · rw [if_neg h1] at h
      by_cases h2 : (resolveBits o).1 + (resolveBits o).2 ≠ 22
      · rw [if_pos h2] at h
        exact Except.noConfusion h
      · rw [if_neg h2] at h
        by_cases h3 : (resolveBits o).1 ≤ 0 ∨ (resolveBits o).2 ≤ 0
        · rw [if_pos h3] at h
          exact Except.noConfusion h
        · rw [if_neg h3] at h
          by_cases h4 : o.MachineId.isSome ∧
              ((0 : Int) < 0 ∨ (0 : Int) > 2 ^ (resolveBits o).1.toNat - 1)
          · rw [if_pos h4] at h
            exact Except.noConfusion h
          · rw [if_neg h4] at h
            injection h with h5
            rw [← h5]
            dsimp only
            omega
  · intro mb sb now h
    have hbits : resolveBits ⟨some mb, some sb, none, none⟩ = (mb, sb) := rfl
    unfold mkCustomSnowflakeId
    rw [if_neg (show ¬ (firstTimestampRejected
        ⟨some mb, some sb, none, none⟩ now = true) by
      simp [firstTimestampRejected]), hbits]
    dsimp only
    by_cases h2 : mb + sb = 22
    · have h3 : mb ≤ 0 ∨ sb ≤ 0 := by omega
      rw [if_neg (show ¬ mb + sb ≠ 22 by omega), if_pos h3]
      exact ⟨.bitsNotPositive, rfl, rfl⟩
    · rw [if_pos (show mb + sb ≠ 22 by omega)]
      exact ⟨.sumOfBitsNot22, rfl, rfl⟩

/-- C9 witness: the pair `(5, 5)` fails construction with a
configuration error. -/
theorem mkCustom_bits_validation_witness :
    ∃ e, mkCustomSnowflakeId ⟨some 5, some 5, none, none⟩ 0 = .error e ∧
      isConfigurationError e = true :=
  mkCustom_bits_validation.2 5 5 0 (by decide)

/-- C10: the two boundary-id queries and `parseId` never modify the
instance — on every input, including erroring ones, the configuration
and the mutable state are unchanged — and `nextId` leaves the
configuration (bit widths, machine id, epoch) unchanged, mutating only
the `lastTimestamp`/`sequence` state. -/
theorem methods_frame (g : Generator) (input : TsInput) (idStr : String)
    (t tn : Nat) :
    (getFirstIdAtTimestampM g input).2 = g ∧
    (getLastIdAtTimestampM g input).2 = g ∧
    (parseIdM g idStr).2 = g ∧
    (nextIdM g t tn).2.config = g.config :=
  ⟨rfl, rfl, rfl, rfl⟩
